import Mathlib

/-!
Shallow embedding of `scripts/cancel_github_workflows.py`.

The script is a CLI utility that cancels queued or running GitHub workflow
runs selected by branch name or pull-request number.  Network effects are
modelled by passing the platform responses as explicit function parameters:
`fetch event status` stands for the parsed `workflow_runs` collection that
`list_runs` obtains for one `(event, status)` query, `getPR input` for the
parsed pull-request record that `get_pull_request` obtains, and
`cancel run_id` for the outcome of one `cancel_run` call.  Printing and the
cancellation POST requests are modelled as a trace of `ReportEntry` values.
-/

/-- Data model - the head commit record of a workflow run, with the fields the
script reads: `id`, `author.name`, `author.email`, `timestamp`, `message`
(used by `print_commit` and by the keep-last filter). -/
structure Commit where
  id : String
  author_name : String
  author_email : String
  timestamp : String
  message : String
deriving DecidableEq

/-- Data model - a workflow run record, with the fields the script reads:
`id`, `name`, `head_branch`, `head_repository.owner.login` (the login the
actor filter is compared against, flattened to one field), `head_commit`,
`created_at`. -/
structure WorkflowRun where
  id : Nat
  name : String
  head_branch : String
  head_repository_owner_login : String
  head_commit : Commit
  created_at : String
deriving DecidableEq

/-- Data model - a pull-request record, with the fields the script reads:
`number`, `title`, `head.ref` (source branch, flattened), `user.login`
(author login, flattened). -/
structure PullRequest where
  number : Nat
  title : String
  head_ref : String
  user_login : String
deriving DecidableEq

/-- A scalar JSON value appearing as a top-level field of a response body.
The script never descends into structured field values on the error path,
so scalars suffice for the `message` convention. -/
inductive JsonVal where
  | str (s : String)
  | num (n : Int)
  | bool (b : Bool)
  | null
deriving DecidableEq

/-- A parsed JSON response body.  Every endpoint this script calls returns a
JSON object, and the client only inspects top-level keys (the Python code
does `"message" in resp` and `resp["message"]`), so a body is modelled as
its list of top-level fields.  Python dict keys are unique, so lookup takes
the first match. -/
structure JsonBody where
  fields : List (String × JsonVal)
deriving DecidableEq

/-- Python `"key" in resp` for an object body. -/
def JsonBody.hasField (body : JsonBody) (key : String) : Bool :=
  body.fields.any (fun f => f.1 == key)

/-- Python `resp["key"]` for an object body, as an `Option`. -/
def JsonBody.getField (body : JsonBody) (key : String) : Option JsonVal :=
  (body.fields.find? (fun f => f.1 == key)).map (fun f => f.2)

/-- The error raised by `request` (a `ClickException` whose message is
formatted from these three components: Python
`f"{method} {endpoint} >> {resp[...]} <<"`). -/
structure ApiError where
  method : String
  endpoint : String
  message : JsonVal
deriving DecidableEq

-- Equality of `Except` results is decidable when both component types have
-- decidable equality; used to evaluate the concrete instances below.
deriving instance DecidableEq for Except

/-- Embeds `request` (lines 17 to 26).  The HTTP exchange itself is outside
the model: the function receives the parsed JSON body `resp` that
`requests.request(...).json()` produced.  The code never consults the HTTP
status; it raises iff the body has a top-level `message` field (the
membership test `"message" in resp` and the index `resp["message"]` are
combined into one lookup, which agree on object bodies), and otherwise
returns the body unchanged. -/
def request (method : String) (endpoint : String) (resp : JsonBody) :
    Except ApiError JsonBody :=
  match resp.getField "message" with
  | some msg => Except.error ⟨method, endpoint, msg⟩
  | none => Except.ok resp

/-- Embeds `get_runs_by_branch` (lines 41 to 56).  `fetch event status` is
the `workflow_runs` list that `list_runs repo {event, status}` returned; the
repository identifier only shapes the endpoint and is absorbed into `fetch`.
The comprehension iterates events (outer), then statuses (inner), then the
items of each response, keeping an item iff its `head_branch` equals
`branch` and, when `user` is given, its `head_repository.owner.login`
equals `user` (Python: `user is None or user == item[...]["login"]`). -/
def get_runs_by_branch (fetch : String → String → List WorkflowRun)
    (branch : String) (user : Option String)
    (statuses : List String) (events : List String) : List WorkflowRun :=
  events.flatMap fun event =>
    statuses.flatMap fun status =>
      (fetch event status).filter fun item =>
        item.head_branch == branch &&
          (match user with
           | none => true
           | some u => u == item.head_repository_owner_login)

/-- The accumulation step of `get_runs_by_branch` before its filter: the
concatenation, event-major and status-minor, of every fetched
`workflow_runs` collection. -/
def accumulateRuns (fetch : String → String → List WorkflowRun)
    (statuses : List String) (events : List String) : List WorkflowRun :=
  events.flatMap fun event => statuses.flatMap fun status => fetch event status

/-- Code point ranges of Unicode decimal digit characters (general category
Nd): the ASCII digits plus the decimal digits of the non-ASCII scripts the
model enumerates - Arabic-Indic, Extended Arabic-Indic, Devanagari,
Bengali, and the fullwidth digits.  CPython accepts decimal digits of
further scripts that are not enumerated here; the table is exact on the
ASCII range, and statements that need exactness beyond the enumerated
ranges are restricted to ASCII inputs. -/
def decimalDigitRanges : List (Nat × Nat) :=
  [(0x30, 0x39),     -- 0-9
   (0x660, 0x669),   -- Arabic-Indic
   (0x6F0, 0x6F9),   -- Extended Arabic-Indic
   (0x966, 0x96F),   -- Devanagari
   (0x9E6, 0x9EF),   -- Bengali
   (0xFF10, 0xFF19)] -- fullwidth

/-- Whether a character is a decimal digit, per `decimalDigitRanges`. -/
def pyIsDecimalDigitChar (c : Char) : Bool :=
  decimalDigitRanges.any fun r => decide (r.1 ≤ c.toNat ∧ c.toNat ≤ r.2)

/-- Code point ranges of characters with Unicode numeric type Digit that are
not decimal digits: the superscript digits (including superscript one, two
and three from Latin-1) and the subscript digits.  CPython `str.isdigit`
accepts these as well, although they are not decimal digits; every such
character is outside the ASCII range. -/
def digitTypeExtras : List (Nat × Nat) :=
  [(0xB2, 0xB3),     -- superscript two, three
   (0xB9, 0xB9),     -- superscript one
   (0x2070, 0x2070), -- superscript zero
   (0x2074, 0x2079), -- superscript four to nine
   (0x2080, 0x2089)] -- subscript zero to nine

/-- Whether a character is accepted by Python `str.isdigit`: a decimal digit
or a digit-type character. -/
def pyIsDigitChar (c : Char) : Bool :=
  pyIsDecimalDigitChar c ||
    digitTypeExtras.any fun r => decide (r.1 ≤ c.toNat ∧ c.toNat ≤ r.2)

/-- Embeds Python `str.isdigit` as used on line 105: true iff the string is
nonempty and every character has Unicode numeric type Decimal or Digit.
On ASCII strings this is exactly: nonempty and composed of the digits 0-9.
Beyond ASCII the character tables above enumerate a verified subset of what
CPython accepts (non-ASCII decimal digits such as the Arabic-Indic ones,
and non-decimal digit-type characters such as the superscripts). -/
def pyIsdigit (s : String) : Bool :=
  !s.data.isEmpty && s.data.all pyIsDigitChar

/-- Splits a character list at the first occurrence of `sep`, returning the
parts before and after it, or `none` when `sep` does not occur. -/
def splitFirstAt (sep : Char) : List Char → Option (List Char × List Char)
  | [] => none
  | c :: cs =>
      if c = sep then some ([], cs)
      else
        match splitFirstAt sep cs with
        | none => none
        | some (pre, post) => some (c :: pre, post)

/-- Python `str.split(sep, maxsplit)` on character lists, for a one-character
separator: split at the first `sep` at most `maxsplit` times. -/
def pySplitChar (sep : Char) : List Char → Nat → List (List Char)
  | cs, 0 => [cs]
  | cs, maxsplit + 1 =>
      match splitFirstAt sep cs with
      | none => [cs]
      | some (pre, post) => pre :: pySplitChar sep post maxsplit

/-- Python `s.split(sep, maxsplit)` for a one-character separator. -/
def pySplit (s : String) (sep : Char) (maxsplit : Nat) : List String :=
  (pySplitChar sep s.data maxsplit).map (fun cs => String.mk cs)

/-- Embeds lines 125 to 128 of `cancel_github_workflows`:
`user = None; branch = branch_or_pull; if ":" in branch:
[user, branch] = branch.split(":", 2)`.  The two-name unpacking of the
`split(":", 2)` result raises `ValueError` whenever the split yields a
number of parts other than two, which the embedding surfaces as
`Except.error`. -/
def resolveBranchSpecifier (input : String) :
    Except String (Option String × String) :=
  if input.data.contains ':' then
    match pySplit input ':' 2 with
    | [user, branch] => Except.ok (some user, branch)
    | _ => Except.error "ValueError: not exactly two values to unpack"
  else
    Except.ok (none, input)

/-- The arguments that `cancel_github_workflows` hands to
`get_runs_by_branch`, together with the pull-request record when one was
fetched and the printed title. -/
structure ResolvedQuery where
  pr : Option PullRequest
  branchArg : String
  userArg : Option String
  title : String
deriving DecidableEq

/-- Embeds the target-resolution part of `cancel_github_workflows` (lines
105 to 131).  `getPR input` is the parsed record that
`get_pull_request repo input` returned.  On the digit path the code passes
`branch=pr["head"]["ref"], user=pr["user"]["login"]`.  On the branch path
the code computes `user` and `branch` by splitting, but line 130 then
passes `branch=branch_or_pull` - the RAW input string - so `branchArg` is
`input` and the split result `branch` is dead. -/
def resolveQuery (getPR : String → PullRequest) (input : String) :
    Except String ResolvedQuery :=
  if pyIsdigit input then
    let pr := getPR input
    Except.ok ⟨some pr, pr.head_ref, some pr.user_login,
      "#" ++ toString pr.number ++ " - " ++ pr.title⟩
  else
    match resolveBranchSpecifier input with
    | Except.ok (user, _branch) => Except.ok ⟨none, input, user, input⟩
    | Except.error e => Except.error e

/-- One observable step of the cancellation phase, in emission order:
`commitHeader` is a `print_commit` call, `cancelled` is one `cancel_run`
POST that returned without a `message` body followed by the success line,
`cancelFailed` is one `cancel_run` POST whose `ClickException` was caught
followed by the failure line, `noRuns` and `onlyLatest` are the two
terminal early-exit messages. -/
inductive ReportEntry where
  | commitHeader (commit : Commit)
  | cancelled (run_id : Nat) (run_name : String)
  | cancelFailed (run_id : Nat) (run_name : String) (err : ApiError)
  | noRuns
  | onlyLatest
deriving DecidableEq

/-- Embeds the loop of lines 148 to 159: iterate the selected runs carrying
`last_sha` (initially `None`), print the commit header whenever the current
head-commit id differs from `last_sha`, then attempt `cancel_run`; a raised
`ClickException` is caught and reported inline, and iteration continues. -/
def cancelLoop (cancel : Nat → Except ApiError JsonBody) :
    Option String → List WorkflowRun → List ReportEntry
  | _, [] => []
  | last_sha, entry :: rest =>
      let hdr : List ReportEntry :=
        if last_sha == some entry.head_commit.id then []
        else [ReportEntry.commitHeader entry.head_commit]
      let line : ReportEntry :=
        match cancel entry.id with
        | Except.ok _ => ReportEntry.cancelled entry.id entry.name
        | Except.error e => ReportEntry.cancelFailed entry.id entry.name e
      hdr ++ line :: cancelLoop cancel (some entry.head_commit.id) rest

/-- Total lexicographic code-point order on character lists, the order
Python uses to compare the `created_at` key strings. -/
def charListLe : List Char → List Char → Bool
  | [], _ => true
  | _ :: _, [] => false
  | a :: as, b :: bs => if a < b then true else if a = b then charListLe as bs else false

/-- Inserts a run into an already sorted accumulator, after every run whose
`created_at` key is less than or equal to its own. -/
def insertByCreatedAt (r : WorkflowRun) : List WorkflowRun → List WorkflowRun
  | [] => [r]
  | x :: xs =>
      if charListLe x.created_at.data r.created_at.data then
        x :: insertByCreatedAt r xs
      else r :: x :: xs

/-- Embeds line 133, `sorted(runs, key=lambda x: x["created_at"])`: a stable
ascending sort by the `created_at` string.  A stable sort against a total
preorder on keys is extensionally unique, so this insertion sort computes
the same list as Python sorted. -/
def pySorted (runs : List WorkflowRun) : List WorkflowRun :=
  runs.foldl (fun acc r => insertByCreatedAt r acc) []

/-- Embeds lines 133 to 160 of `cancel_github_workflows`, after the run
query: sort by `created_at`; if empty, print the no-runs message and stop;
take the head-commit id of the last (most recent) run; if `keep_last`, drop
every run with that head-commit id and, if nothing remains, print the
only-latest message and stop; otherwise run the cancellation loop with
`last_sha` reset to `None`. -/
def driveCancellation (cancel : Nat → Except ApiError JsonBody)
    (keep_last : Bool) (runs0 : List WorkflowRun) : List ReportEntry :=
  let runs := pySorted runs0
  match runs.getLast? with
  | none => [ReportEntry.noRuns]
  | some lastRun =>
      if keep_last then
        let kept := runs.filter fun x => !(x.head_commit.id == lastRun.head_commit.id)
        if kept.isEmpty then [ReportEntry.onlyLatest]
        else cancelLoop cancel none kept
      else cancelLoop cancel none runs

/-- Embeds line 102: `statuses = ("queued",) if keep_running else
("queued", "in_progress")`. -/
def statusesFor (keep_running : Bool) : List String :=
  if keep_running then ["queued"] else ["queued", "in_progress"]

/-- Embeds the body of `cancel_github_workflows` (lines 95 to 160), with the
token check and console titles outside the model: compute the status set,
resolve the target, query the runs with the arguments the code actually
passes, and drive the cancellation phase.  An uncaught exception during
resolution surfaces as `Except.error`. -/
def cancel_github_workflows (getPR : String → PullRequest)
    (fetch : String → String → List WorkflowRun)
    (cancel : Nat → Except ApiError JsonBody)
    (branch_or_pull : String) (events : List String)
    (keep_last keep_running : Bool) : Except String (List ReportEntry) :=
  let statuses := statusesFor keep_running
  match resolveQuery getPR branch_or_pull with
  | Except.error e => Except.error e
  | Except.ok q =>
      Except.ok (driveCancellation cancel keep_last
        (get_runs_by_branch fetch q.branchArg q.userArg statuses events))

/-- The run ids on which a cancellation POST was attempted, in order, read
off a report trace. -/
def attemptedIds : List ReportEntry → List Nat
  | [] => []
  | ReportEntry.cancelled i _ :: rest => i :: attemptedIds rest
  | ReportEntry.cancelFailed i _ _ :: rest => i :: attemptedIds rest
  | ReportEntry.commitHeader _ :: rest => attemptedIds rest
  | ReportEntry.noRuns :: rest => attemptedIds rest
  | ReportEntry.onlyLatest :: rest => attemptedIds rest

/-- Sample commit, run, pull-request and response data used by the concrete
instances below. -/
def commitA : Commit := ⟨"def456", "Ann", "ann@example.org", "t1", "first"⟩

/-- Sample commit shared by two of the sample runs. -/
def commitB : Commit := ⟨"abc123", "Bob", "bob@example.org", "t2", "second"⟩

/-- Sample run on branch feature-x, oldest, on commit def456. -/
def runA : WorkflowRun := ⟨1, "Run A", "feature-x", "alice", commitA, "t1"⟩

/-- Sample run on branch feature-x, on commit abc123. -/
def runB : WorkflowRun := ⟨2, "Run B", "feature-x", "alice", commitB, "t2"⟩

/-- Sample run on branch feature-x, newest, on commit abc123. -/
def runC : WorkflowRun := ⟨3, "Run C", "feature-x", "alice", commitB, "t3"⟩

/-- Sample run on an unrelated branch by another login. -/
def runX : WorkflowRun := ⟨9, "Run X", "other", "bob", commitA, "t4"⟩

/-- Sample run on branch my-branch by alice. -/
def runM : WorkflowRun := ⟨7, "Run M", "my-branch", "alice", commitA, "t1"⟩

/-- Sample pull request 123 from branch feature-x by alice. -/
def prA : PullRequest := ⟨123, "Fix things", "feature-x", "alice"⟩

/-- Sample success body for a cancellation POST. -/
def okBody : JsonBody := ⟨[("status", JsonVal.str "ok")]⟩

/-- Sample cancellation oracle on which every POST succeeds. -/
def cancelOk : Nat → Except ApiError JsonBody := fun _ => Except.ok okBody

/-- Sample cancellation oracle on which run id 1 fails with a Not Found
message body and every other id succeeds. -/
def cancelFailsOn1 : Nat → Except ApiError JsonBody := fun i =>
  if i = 1 then request "POST" "repos/r/actions/runs/1/cancel"
    ⟨[("message", JsonVal.str "Not Found")]⟩
  else Except.ok okBody


set_option maxRecDepth 4000 in
/-- The run-query filter distributes over the accumulation: the query result
is the accumulated concatenation filtered by the branch and actor tests. -/
theorem get_runs_by_branch_eq_filter (fetch : String → String → List WorkflowRun)
    (branch : String) (user : Option String) (statuses events : List String) :
    get_runs_by_branch fetch branch user statuses events
      = (accumulateRuns fetch statuses events).filter fun item =>
          item.head_branch == branch &&
            (match user with
             | none => true
             | some u => u == item.head_repository_owner_login) := by
  unfold get_runs_by_branch accumulateRuns
  simp only [List.filter_flatMap]

/-- Membership in the run-query result: a run is selected iff it occurs in
the accumulated concatenation, its head branch equals the target branch,
and the actor filter is absent or matched. -/
theorem mem_get_runs_by_branch (fetch : String → String → List WorkflowRun)
    (branch : String) (user : Option String) (statuses events : List String)
    (r : WorkflowRun) :
    r ∈ get_runs_by_branch fetch branch user statuses events ↔
      r ∈ accumulateRuns fetch statuses events ∧ r.head_branch = branch ∧
        ∀ u, user = some u → r.head_repository_owner_login = u := by
  rw [get_runs_by_branch_eq_filter, List.mem_filter]
  cases user with
  | none =>
      simp only [Bool.and_eq_true, beq_iff_eq]
      constructor
      · rintro ⟨h1, h2, _⟩
        exact ⟨h1, h2, fun u hu => by cases hu⟩
      · rintro ⟨h1, h2, _⟩
        exact ⟨h1, h2, trivial⟩
  | some u =>
      simp only [Bool.and_eq_true, beq_iff_eq]
      constructor
      · rintro ⟨h1, h2, h3⟩
        exact ⟨h1, h2, fun v hv => by cases hv; exact h3.symm⟩
      · rintro ⟨h1, h2, h3⟩
        exact ⟨h1, h2, (h3 u rfl).symm⟩

/-- Attempted ids distribute over trace concatenation. -/
theorem attemptedIds_append (a b : List ReportEntry) :
    attemptedIds (a ++ b) = attemptedIds a ++ attemptedIds b := by
  induction a with
  | nil => rfl
  | cons e rest ih => cases e <;> simp [attemptedIds, ih]

/-- The cancellation loop attempts exactly the runs of its input list, in
order, whatever the outcome of each POST. -/
theorem attemptedIds_cancelLoop (cancel : Nat → Except ApiError JsonBody)
    (last_sha : Option String) (runs : List WorkflowRun) :
    attemptedIds (cancelLoop cancel last_sha runs) = runs.map (fun r => r.id) := by
  induction runs generalizing last_sha with
  | nil => rfl
  | cons r rest ih =>
      simp only [cancelLoop, attemptedIds_append, List.map_cons]
      cases h : cancel r.id <;>
        split <;> simp [attemptedIds, h, ih]

/-- Every run of the loop input gets a per-run report entry: a failure entry
carrying the caught error when its POST fails, a success entry when it
succeeds. -/
theorem cancelLoop_report_of_mem (cancel : Nat → Except ApiError JsonBody)
    (last_sha : Option String) (runs : List WorkflowRun) (r : WorkflowRun)
    (hr : r ∈ runs) :
    (∀ e, cancel r.id = Except.error e →
        ReportEntry.cancelFailed r.id r.name e ∈ cancelLoop cancel last_sha runs) ∧
    (∀ b, cancel r.id = Except.ok b →
        ReportEntry.cancelled r.id r.name ∈ cancelLoop cancel last_sha runs) := by
  induction runs generalizing last_sha with
  | nil => cases hr
  | cons x rest ih =>
      rcases List.mem_cons.mp hr with heq | hmem
      · subst heq
        constructor
        · intro e he
          simp only [cancelLoop]
          exact List.mem_append_right _ (by simp [he])
        · intro b hb
          simp only [cancelLoop]
          exact List.mem_append_right _ (by simp [hb])
      · constructor
        · intro e he
          simp only [cancelLoop]
          exact List.mem_append_right _
            (List.mem_cons_of_mem _ ((ih (some x.head_commit.id) hmem).1 e he))
        · intro b hb
          simp only [cancelLoop]
          exact List.mem_append_right _
            (List.mem_cons_of_mem _ ((ih (some x.head_commit.id) hmem).2 b hb))

/-- The membership test and the lookup agree on object bodies: a body has a
field under a key iff the lookup returns a value. -/
theorem hasField_iff_getField (body : JsonBody) (key : String) :
    body.hasField key = true ↔ ∃ v, body.getField key = some v := by
  unfold JsonBody.hasField JsonBody.getField
  rw [List.any_eq_true]
  constructor
  · rintro ⟨f, hf, hkey⟩
    have hs : (body.fields.find? (fun g => g.1 == key)).isSome :=
      List.find?_isSome.mpr ⟨f, hf, hkey⟩
    rcases Option.isSome_iff_exists.mp hs with ⟨g, hg⟩
    exact ⟨g.2, by rw [hg]; rfl⟩
  · rintro ⟨v, hv⟩
    rcases Option.map_eq_some'.mp hv with ⟨g, hg, _⟩
    exact ⟨g, List.mem_of_find?_eq_some hg,
      @List.find?_some _ (fun g => g.1 == key) g body.fields hg⟩

/-- C1: for every list of fetched workflow runs and every selection
criteria, the filtered result of the run query contains exactly those
accumulated runs whose head branch equals the resolved target branch and,
when an actor login filter is given, whose actor login (the
head-repository owner login the code compares against) equals that filter;
runs failing either test are excluded and no other runs are excluded. -/
theorem C1_run_query_filters_branch_and_actor
    (fetch : String → String → List WorkflowRun) (branch : String)
    (user : Option String) (statuses events : List String) (r : WorkflowRun) :
    r ∈ get_runs_by_branch fetch branch user statuses events ↔
      r ∈ accumulateRuns fetch statuses events ∧ r.head_branch = branch ∧
        ∀ u, user = some u → r.head_repository_owner_login = u :=
  mem_get_runs_by_branch fetch branch user statuses events r

/-- C1 witness: on a concrete fetch with mixed branches and actors, the run
on feature-x by alice is selected and the run on another branch by another
login is not. -/
theorem C1_run_query_filters_branch_and_actor_witness :
    runA ∈ get_runs_by_branch (fun _ _ => [runA, runX]) "feature-x"
        (some "alice") ["queued"] ["push"] ∧
    ¬ runX ∈ get_runs_by_branch (fun _ _ => [runA, runX]) "feature-x"
        (some "alice") ["queued"] ["push"] := by
  constructor
  · exact (C1_run_query_filters_branch_and_actor (fun _ _ => [runA, runX])
      "feature-x" (some "alice") ["queued"] ["push"] runA).mpr
      ⟨by decide, by decide, fun u hu => by cases hu; rfl⟩
  · intro hmem
    rcases (C1_run_query_filters_branch_and_actor (fun _ _ => [runA, runX])
      "feature-x" (some "alice") ["queued"] ["push"] runX).mp hmem with ⟨-, hb, -⟩
    exact absurd hb (by decide)

/-- C2: the claim fails on the code.  Resolution does split the specifier
alice:my-branch into actor alice and branch my-branch, but line 130 then
passes the raw input string as the branch argument of the run query, so the
head-branch comparison receives alice:my-branch, never my-branch; in
consequence a queued run on my-branch by alice is not selected and the
invocation cancels nothing. -/
theorem C2_raw_input_reaches_run_query :
    resolveBranchSpecifier "alice:my-branch"
      = Except.ok (some "alice", "my-branch") ∧
    resolveQuery (fun _ => prA) "alice:my-branch"
      = Except.ok ⟨none, "alice:my-branch", some "alice", "alice:my-branch"⟩ ∧
    ("alice:my-branch" : String) ≠ "my-branch" ∧
    cancel_github_workflows (fun _ => prA) (fun _ _ => [runM]) cancelOk
        "alice:my-branch" ["push"] false true
      = Except.ok [ReportEntry.noRuns] :=
  ⟨by decide, by decide, by decide, by decide⟩

/-- C3: the claim fails on the code.  When the same run id is returned by
the queries of both event kinds, the accumulated selection keeps both
occurrences - no step deduplicates by run id - and the cancellation loop
attempts run id 1 twice in one invocation. -/
theorem C3_duplicate_run_id_cancelled_twice :
    Except.map attemptedIds
        (cancel_github_workflows (fun _ => prA) (fun _ _ => [runA]) cancelOk
          "feature-x" ["pull_request", "push"] false true)
      = Except.ok [1, 1] := by decide

/-- C4: the claim fails on the code for specifiers with two or more colons:
the split uses maxsplit two, so a:b:c yields three parts and the two-name
unpacking raises ValueError instead of producing actor a and branch b:c;
specifiers with exactly one colon, and specifiers with no colon, behave as
claimed. -/
theorem C4_split_crashes_on_second_colon :
    resolveBranchSpecifier "my-branch" = Except.ok (none, "my-branch") ∧
    resolveBranchSpecifier "alice:feature" = Except.ok (some "alice", "feature") ∧
    pySplit "a:b:c" ':' 2 = ["a", "b", "c"] ∧
    resolveBranchSpecifier "a:b:c"
      = Except.error "ValueError: not exactly two values to unpack" :=
  ⟨by decide, by decide, by decide, by decide⟩

/-- C5: over any selection sorted ascending by creation timestamp and
non-empty, with keep last set every run whose head-commit id equals the
head-commit id of the chronologically last run is removed before
cancellation, and the remaining runs are the attempted ones in order; with
keep last unset every sorted run is retained and attempted. -/
theorem C5_keep_last_guard (cancel : Nat → Except ApiError JsonBody)
    (runs0 : List WorkflowRun) (hne : pySorted runs0 ≠ []) :
    attemptedIds (driveCancellation cancel true runs0)
      = ((pySorted runs0).filter fun x =>
          !(x.head_commit.id == ((pySorted runs0).getLast hne).head_commit.id)).map
          (fun r => r.id)
    ∧ attemptedIds (driveCancellation cancel false runs0)
      = (pySorted runs0).map (fun r => r.id) := by
  have hL : (pySorted runs0).getLast? = some ((pySorted runs0).getLast hne) :=
    List.getLast?_eq_getLast _ hne
  have e1 : driveCancellation cancel true runs0
      = if ((pySorted runs0).filter fun x =>
            !(x.head_commit.id == ((pySorted runs0).getLast hne).head_commit.id)).isEmpty
        then [ReportEntry.onlyLatest]
        else cancelLoop cancel none ((pySorted runs0).filter fun x =>
            !(x.head_commit.id == ((pySorted runs0).getLast hne).head_commit.id)) := by
    simp only [driveCancellation, hL]
    rw [if_pos trivial]
  have e2 : driveCancellation cancel false runs0
      = cancelLoop cancel none (pySorted runs0) := by
    simp only [driveCancellation, hL]
    rw [if_neg Bool.false_ne_true]
  refine ⟨?_, ?_⟩
  · by_cases hk : ((pySorted runs0).filter fun x =>
        !(x.head_commit.id == ((pySorted runs0).getLast hne).head_commit.id)) = []
    · rw [e1, hk]
      rfl
    · rw [e1, if_neg (by simpa [List.isEmpty_iff] using hk)]
      exact attemptedIds_cancelLoop cancel none _
  · rw [e2]
    exact attemptedIds_cancelLoop cancel none _

/-- C5 witness: three runs on feature-x created at t1 before t2 before t3,
where the two newest share commit abc123; with keep last set only the run
on def456 is attempted, with keep last unset all three are attempted. -/
theorem C5_keep_last_guard_witness :
    pySorted [runC, runA, runB] ≠ [] ∧
    attemptedIds (driveCancellation cancelOk true [runC, runA, runB]) = [1] ∧
    attemptedIds (driveCancellation cancelOk false [runC, runA, runB]) = [1, 2, 3] := by
  have h := C5_keep_last_guard cancelOk [runC, runA, runB] (by decide)
  exact ⟨by decide, by rw [h.1]; decide, by rw [h.2]; decide⟩

/-- C6: the client fails with an ApiError carrying the method, the endpoint
and the platform message exactly when the parsed body has a top-level
message field (no HTTP status is ever consulted), and returns the parsed
body unchanged when the field is absent. -/
theorem C6_message_convention (method endpoint : String) (resp : JsonBody) :
    (∀ msg, resp.getField "message" = some msg →
        request method endpoint resp = Except.error ⟨method, endpoint, msg⟩) ∧
    ((∃ e, request method endpoint resp = Except.error e) ↔
        resp.hasField "message" = true) ∧
    (resp.hasField "message" = false →
        request method endpoint resp = Except.ok resp) := by
  refine ⟨?_, ⟨?_, ?_⟩, ?_⟩
  · intro msg h
    unfold request
    rw [h]
  · rintro ⟨e, he⟩
    unfold request at he
    cases hg : resp.getField "message" with
    | none => rw [hg] at he; cases he
    | some v => exact (hasField_iff_getField resp "message").mpr ⟨v, hg⟩
  · intro h
    rcases (hasField_iff_getField resp "message").mp h with ⟨v, hv⟩
    exact ⟨⟨method, endpoint, v⟩, by unfold request; rw [hv]⟩
  · intro h
    cases hg : resp.getField "message" with
    | none => unfold request; rw [hg]
    | some v =>
        have : resp.hasField "message" = true :=
          (hasField_iff_getField resp "message").mpr ⟨v, hg⟩
        rw [h] at this
        cases this

/-- C6 witness: a body with a Not Found message fails with the structured
error, and a body without the field is returned unchanged. -/
theorem C6_message_convention_witness :
    request "POST" "repos/r/actions/runs/42/cancel"
        ⟨[("message", JsonVal.str "Not Found")]⟩
      = Except.error ⟨"POST", "repos/r/actions/runs/42/cancel",
          JsonVal.str "Not Found"⟩ ∧
    request "GET" "endpoint" okBody = Except.ok okBody := by
  constructor
  · exact (C6_message_convention "POST" "repos/r/actions/runs/42/cancel"
      ⟨[("message", JsonVal.str "Not Found")]⟩).1 (JsonVal.str "Not Found") (by decide)
  · exact (C6_message_convention "GET" "endpoint" okBody).2.2 (by decide)

/-- C7: for every selected run list and every pattern of per-run outcomes,
the loop attempts the cancellation of every run in order - a failure never
aborts the batch - and each run is reported: with a failure entry carrying
the caught error when its POST fails, with a success entry otherwise. -/
theorem C7_failures_do_not_abort_batch (cancel : Nat → Except ApiError JsonBody)
    (last_sha : Option String) (runs : List WorkflowRun) :
    attemptedIds (cancelLoop cancel last_sha runs) = runs.map (fun r => r.id) ∧
    ∀ r ∈ runs,
      (∀ e, cancel r.id = Except.error e →
          ReportEntry.cancelFailed r.id r.name e ∈ cancelLoop cancel last_sha runs) ∧
      (∀ b, cancel r.id = Except.ok b →
          ReportEntry.cancelled r.id r.name ∈ cancelLoop cancel last_sha runs) :=
  ⟨attemptedIds_cancelLoop cancel last_sha runs,
   fun r hr => cancelLoop_report_of_mem cancel last_sha runs r hr⟩

/-- C7 witness: run 1 fails with Not Found, yet run 2 is still attempted;
both outcomes are reported per run. -/
theorem C7_failures_do_not_abort_batch_witness :
    attemptedIds (cancelLoop cancelFailsOn1 none [runA, runB]) = [1, 2] ∧
    ReportEntry.cancelFailed 1 "Run A"
        ⟨"POST", "repos/r/actions/runs/1/cancel", JsonVal.str "Not Found"⟩
      ∈ cancelLoop cancelFailsOn1 none [runA, runB] ∧
    ReportEntry.cancelled 2 "Run B" ∈ cancelLoop cancelFailsOn1 none [runA, runB] := by
  have h := C7_failures_do_not_abort_batch cancelFailsOn1 none [runA, runB]
  refine ⟨by rw [h.1]; decide, ?_, ?_⟩
  · exact (h.2 runA (by decide)).1
      ⟨"POST", "repos/r/actions/runs/1/cancel", JsonVal.str "Not Found"⟩ (by decide)
  · exact (h.2 runB (by decide)).2 okBody (by decide)

/-- C8: an invocation whose selection is empty terminates with the no-runs
message, and an invocation whose keep-last removal empties the selection
terminates with the only-latest message; both are ordinary returns, not
errors, and neither attempts any cancellation POST. -/
theorem C8_empty_selection_terminates (cancel : Nat → Except ApiError JsonBody)
    (keep_last : Bool) (runs0 : List WorkflowRun) :
    (runs0 = [] →
        driveCancellation cancel keep_last runs0 = [ReportEntry.noRuns] ∧
        attemptedIds (driveCancellation cancel keep_last runs0) = []) ∧
    ∀ hne : pySorted runs0 ≠ [],
      ((pySorted runs0).filter fun x =>
          !(x.head_commit.id == ((pySorted runs0).getLast hne).head_commit.id)) = [] →
        driveCancellation cancel true runs0 = [ReportEntry.onlyLatest] ∧
        attemptedIds (driveCancellation cancel true runs0) = [] := by
  constructor
  · rintro rfl
    exact ⟨rfl, rfl⟩
  · intro hne hflt
    have hL : (pySorted runs0).getLast? = some ((pySorted runs0).getLast hne) :=
      List.getLast?_eq_getLast _ hne
    have e1 : driveCancellation cancel true runs0 = [ReportEntry.onlyLatest] := by
      simp only [driveCancellation, hL]
      rw [if_pos trivial, hflt]
      rfl
    exact ⟨e1, by rw [e1]; rfl⟩

/-- C8 witness: the empty selection, and a selection that the keep-last
removal empties (two runs sharing the newest commit), both stop with the
terminal message and attempt nothing. -/
theorem C8_empty_selection_terminates_witness :
    driveCancellation cancelOk true ([] : List WorkflowRun) = [ReportEntry.noRuns] ∧
    driveCancellation cancelOk true [runB, runC] = [ReportEntry.onlyLatest] ∧
    attemptedIds (driveCancellation cancelOk true [runB, runC]) = [] := by
  refine ⟨((C8_empty_selection_terminates cancelOk true []).1 rfl).1, ?_, ?_⟩
  · exact (((C8_empty_selection_terminates cancelOk true [runB, runC]).2
      (by decide)) (by decide)).1
  · exact (((C8_empty_selection_terminates cancelOk true [runB, runC]).2
      (by decide)) (by decide)).2

/-- On the ASCII range the Python digit test coincides with being one of the
decimal digits 0-9: every digit-type extra character lies outside ASCII. -/
theorem ascii_pyIsDigitChar (c : Char) (h : c.toNat < 128) :
    pyIsDigitChar c = pyIsDecimalDigitChar c := by
  unfold pyIsDigitChar
  have hextras :
      (digitTypeExtras.any fun r => decide (r.1 ≤ c.toNat ∧ c.toNat ≤ r.2)) = false := by
    rw [Bool.eq_false_iff]
    intro hany
    rw [List.any_eq_true] at hany
    rcases hany with ⟨r, hr, hcond⟩
    rw [decide_eq_true_iff] at hcond
    unfold digitTypeExtras at hr
    fin_cases hr <;> simp at hcond <;> omega
  rw [hextras, Bool.or_false]

/-- An ASCII string that is empty or contains a character that is not a
decimal digit fails the Python digit test. -/
theorem pyIsdigit_eq_false_of_ascii (s : String)
    (hascii : ∀ c ∈ s.data, c.toNat < 128)
    (h : ¬ (s.data ≠ [] ∧ ∀ c ∈ s.data, pyIsDecimalDigitChar c = true)) :
    pyIsdigit s = false := by
  by_cases hnil : s.data = []
  · unfold pyIsdigit
    rw [hnil]
    rfl
  · have hnall : ¬ ∀ c ∈ s.data, pyIsDecimalDigitChar c = true :=
      fun hall => h ⟨hnil, hall⟩
    push_neg at hnall
    rcases hnall with ⟨c, hmem, hval⟩
    have hval2 : pyIsDecimalDigitChar c = false := Bool.eq_false_iff.mpr hval
    have hall_false : s.data.all pyIsDigitChar = false := by
      rw [Bool.eq_false_iff]
      intro htrue
      rw [List.all_eq_true] at htrue
      have := htrue c hmem
      rw [ascii_pyIsDigitChar c (hascii c hmem), hval2] at this
      cases this
    unfold pyIsdigit
    rw [hall_false, Bool.and_false]

/-- C9 counterexample: the input consisting of the single superscript-two
character is not composed of decimal digits (neither by the decimal table
nor as an ASCII digit), yet Python isdigit accepts it, so target resolution
performs a pull-request lookup there: the resolved record carries the
fetched pull request, and the outcome depends on the lookup function.
This refutes the claim that every non-digit input avoids the lookup. -/
theorem C9_superscript_two_performs_lookup :
    (∀ c ∈ ("²" : String).data, pyIsDecimalDigitChar c = false) ∧
    (∀ c ∈ ("²" : String).data, c.isDigit = false) ∧
    pyIsdigit "²" = true ∧
    resolveQuery (fun _ => prA) "²"
      = Except.ok ⟨some prA, "feature-x", some "alice", "#123 - Fix things"⟩ ∧
    resolveQuery (fun _ => PullRequest.mk 7 "t" "b" "u") "²"
      = Except.ok ⟨some ⟨7, "t", "b", "u"⟩, "b", some "u", "#7 - t"⟩ :=
  ⟨by decide, by decide, by decide, by decide, by decide⟩

/-- C9 (amended): every input composed entirely of decimal digits resolves
through a pull-request lookup - branch becomes the PR source branch
reference and the actor filter the PR author login, never the literal
input - and every ASCII input that is empty or not composed entirely of
decimal digits resolves without consulting the pull-request record at all
(the result does not depend on the lookup function, and the resolved
record carries no pull request).  The ASCII restriction on the second
direction is forced by the counterexample: Python isdigit also accepts
non-ASCII digit-type characters such as superscript two, and those inputs
do trigger a pull-request lookup. -/
theorem C9_digit_resolution_amended (getPR getPR2 : String → PullRequest)
    (s : String) :
    ((s.data ≠ [] ∧ ∀ c ∈ s.data, pyIsDecimalDigitChar c = true) →
        resolveQuery getPR s = Except.ok ⟨some (getPR s), (getPR s).head_ref,
          some (getPR s).user_login,
          "#" ++ toString (getPR s).number ++ " - " ++ (getPR s).title⟩) ∧
    ((∀ c ∈ s.data, c.toNat < 128) →
      ¬ (s.data ≠ [] ∧ ∀ c ∈ s.data, pyIsDecimalDigitChar c = true) →
        resolveQuery getPR s = resolveQuery getPR2 s ∧
        ∀ q, resolveQuery getPR s = Except.ok q → q.pr = none) := by
  constructor
  · rintro ⟨hne, hall⟩
    have hd : pyIsdigit s = true := by
      unfold pyIsdigit
      rw [Bool.and_eq_true, Bool.not_eq_true', List.all_eq_true]
      refine ⟨by rw [List.isEmpty_eq_false]; exact hne, fun c hc => ?_⟩
      unfold pyIsDigitChar
      rw [hall c hc, Bool.true_or]
    unfold resolveQuery
    rw [if_pos hd]
  · intro hascii h
    have hd : pyIsdigit s = false := pyIsdigit_eq_false_of_ascii s hascii h
    have hfd : ¬ pyIsdigit s = true := by
      rw [hd]
      exact Bool.false_ne_true
    constructor
    · unfold resolveQuery
      rw [if_neg hfd, if_neg hfd]
    · intro q hq
      unfold resolveQuery at hq
      rw [if_neg hfd] at hq
      cases hres : resolveBranchSpecifier s with
      | ok p =>
          rw [hres] at hq
          cases p with
          | mk user branch =>
              cases hq
              rfl
      | error e => rw [hres] at hq; cases hq

/-- C9 witness: the all-digit inputs 123 and the Arabic-Indic ١٢٣ both
resolve through the pull-request record, and the non-digit ASCII input
feature-x resolves identically under two different lookup functions. -/
theorem C9_digit_resolution_amended_witness :
    resolveQuery (fun _ => prA) "123"
      = Except.ok ⟨some prA, "feature-x", some "alice", "#123 - Fix things"⟩ ∧
    resolveQuery (fun _ => prA) "١٢٣"
      = Except.ok ⟨some prA, "feature-x", some "alice", "#123 - Fix things"⟩ ∧
    resolveQuery (fun _ => prA) "feature-x"
      = resolveQuery (fun _ => PullRequest.mk 0 "z" "z" "z") "feature-x" := by
  refine ⟨?_, ?_, ?_⟩
  · have h := (C9_digit_resolution_amended (fun _ => prA)
      (fun _ => PullRequest.mk 0 "z" "z" "z") "123").1 ⟨by decide, by decide⟩
    rw [h]
    decide
  · have h := (C9_digit_resolution_amended (fun _ => prA)
      (fun _ => PullRequest.mk 0 "z" "z" "z") "١٢٣").1 ⟨by decide, by decide⟩
    rw [h]
    decide
  · exact ((C9_digit_resolution_amended (fun _ => prA)
      (fun _ => PullRequest.mk 0 "z" "z" "z") "feature-x").2
      (by decide) (by decide)).1

/-- C10: the empty input fails the all-digits test, so resolution treats it
as a branch specifier with no actor filter (no pull-request lookup occurs:
the whole invocation is independent of the lookup function), and the run
query then selects exactly the accumulated runs whose head branch is the
empty string. -/
theorem C10_empty_input_is_branch (getPR getPR2 : String → PullRequest)
    (fetch : String → String → List WorkflowRun)
    (cancel : Nat → Except ApiError JsonBody) (events : List String)
    (keep_last keep_running : Bool) (r : WorkflowRun) :
    resolveQuery getPR "" = Except.ok ⟨none, "", none, ""⟩ ∧
    cancel_github_workflows getPR fetch cancel "" events keep_last keep_running
      = cancel_github_workflows getPR2 fetch cancel "" events keep_last keep_running ∧
    (r ∈ get_runs_by_branch fetch "" none (statusesFor keep_running) events ↔
      r ∈ accumulateRuns fetch (statusesFor keep_running) events ∧
        r.head_branch = "") := by
  refine ⟨rfl, rfl, ?_⟩
  rw [mem_get_runs_by_branch]
  constructor
  · rintro ⟨h1, h2, -⟩
    exact ⟨h1, h2⟩
  · rintro ⟨h1, h2⟩
    exact ⟨h1, h2, fun u hu => by cases hu⟩

/-- C10 witness: at concrete inputs, the empty string resolves to the empty
branch with no actor filter, and a run on feature-x is not selected by the
empty-branch query. -/
theorem C10_empty_input_is_branch_witness :
    resolveQuery (fun _ => prA) "" = Except.ok ⟨none, "", none, ""⟩ ∧
    ¬ runA ∈ get_runs_by_branch (fun _ _ => [runA]) "" none (statusesFor true) ["push"] := by
  have h := C10_empty_input_is_branch (fun _ => prA) (fun _ => prA)
    (fun _ _ => [runA]) cancelOk ["push"] true true runA
  refine ⟨h.1, fun hmem => ?_⟩
  have hsel := (h.2.2).mp hmem
  exact absurd hsel.2 (by decide)
